import Mathlib

/-
  Verification development for the demikernel_perf_debug repository.

  Shallow embedding of:
  - src/rust/inetstack/protocols/tcp/passive_open.rs  (PassiveSocket, ReadySockets,
    SharedPassiveSocket::receive, ::poll_accept, ::background)
  - src/rust/catmem/queue.rs                           (CatmemQueue::do_pop, ::try_pop)
  - src/rust/catcollar/mod.rs                          (CatcollarLibOS::bind)
  - src/rust/demikernel/libos/network.rs               (NetworkLibOS::listen)
  - src/catnap/runtime.rs                              (free_sgarray, clone_sgarray)

  Machine integers are modelled as Nat with explicit `% 2^w` wherever the Rust
  code wraps (SeqNumber is Wrapping<u32>; shifts on u16/u32 discard high bits).
  Rust panics (`expect`, slice-index out of bounds) are modelled as an explicit
  `panicked` outcome, distinct from returning `Err(Fail)`.
-/

set_option maxHeartbeats 1000000

/-! ## Errno constants (libc, Linux) -/

def EBADF : Nat := 9
def EAGAIN : Nat := 11
def EINVAL : Nat := 22
def EBADMSG : Nat := 74
def ENOTSUP : Nat := 95
def EADDRINUSE : Nat := 98
def ETIMEDOUT : Nat := 110
def ECONNREFUSED : Nat := 111

/-! ## TCP segment model (src/rust/inetstack/protocols/tcp/segment.rs interface
    as consumed by passive_open.rs) -/

/-- A remote endpoint: (IPv4 address, port), both as Nat. `SocketAddrV4`. -/
abbrev Endpoint : Type := Nat × Nat

/-- TCP options that passive_open.rs inspects (`TcpOptions2`): window scale,
    maximum segment size, and everything else (ignored by the parsing loop). -/
inductive TcpOption where
  | windowScale (w : Nat)
  | maximumSegmentSize (m : Nat)
  | otherOption
deriving DecidableEq, Repr

/-- The fields of `TcpHeader` read or written by passive_open.rs. -/
structure TcpHeader where
  src_port : Nat
  dst_port : Nat
  seq_num : Nat
  ack_num : Nat
  syn : Bool
  ack : Bool
  rst : Bool
  window_size : Nat
  options : List TcpOption
deriving DecidableEq, Repr

/-- The fields of `Ipv4Header` read by passive_open.rs. -/
structure Ipv4Header where
  src_addr : Nat
  dst_addr : Nat
deriving DecidableEq, Repr

/-- The TCP configuration options consumed by passive_open.rs (`TcpConfig`). -/
structure TcpConfig where
  window_scale : Nat
  receive_window_size : Nat
  advertised_mss : Nat
  handshake_retries : Nat
  handshake_timeout : Nat
deriving DecidableEq, Repr

/-- Modelled from the spec: `FALLBACK_MSS` (tcp/constants.rs is outside src/);
    the default advertised MSS used when a SYN carries no MSS option. The
    concrete value is irrelevant to every claim. -/
def FALLBACK_MSS : Nat := 536

/-! ## Passive-open state (passive_open.rs) -/

/-- `InflightAccept` minus the `TaskHandle` field; liveness of the background
    task is tracked by the `bg_live` set of `PassiveSocket` below. -/
structure InflightAccept where
  local_isn : Nat
  remote_isn : Nat
  header_window_size : Nat
  remote_window_scale : Option Nat
  mss : Nat
deriving DecidableEq, Repr

def defaultInflightAccept : InflightAccept :=
  { local_isn := 0, remote_isn := 0, header_window_size := 0,
    remote_window_scale := none, mss := 0 }

/-- The parts of `SharedControlBlock::new`'s arguments that passive_open.rs
    computes; enough to state every claim (in particular `get_remote`). -/
structure ControlBlock where
  local_addr : Endpoint
  remote : Endpoint
  receive_next : Nat
  send_next : Nat
  local_window_size : Nat
  local_window_scale : Nat
  remote_window_size : Nat
  remote_window_scale : Nat
  mss : Nat
deriving DecidableEq, Repr

/-- `ControlBlock::get_remote`. -/
def ControlBlock.get_remote (cb : ControlBlock) : Endpoint := cb.remote

/-- One entry of the `ready` deque: `Result<SharedControlBlock, Fail>`. -/
inductive ReadyEntry where
  | okEntry (cb : ControlBlock)
  | errEntry (errno : Nat)
deriving DecidableEq, Repr

/-- `ReadySockets`: deque of results, endpoint set, parked waker (an abstract
    waker token). -/
structure ReadySockets where
  ready : List ReadyEntry
  endpoints : Finset Endpoint
  waker : Option Nat
deriving DecidableEq

/-- `ReadySockets::push_ok`. The `assert!(self.endpoints.insert(..))` cannot
    fire on the only call path (receive checks membership on entry); the
    insertion itself is modelled. Wakes (and clears) the parked waker. -/
def ReadySockets.push_ok (rs : ReadySockets) (cb : ControlBlock) : ReadySockets :=
  { ready := rs.ready ++ [ReadyEntry.okEntry cb],
    endpoints := insert cb.get_remote rs.endpoints,
    waker := none }

/-- `ReadySockets::push_err`. -/
def ReadySockets.push_err (rs : ReadySockets) (errno : Nat) : ReadySockets :=
  { ready := rs.ready ++ [ReadyEntry.errEntry errno],
    endpoints := rs.endpoints,
    waker := none }

/-- `ReadySockets::poll`: pop the front entry; on `Ok` also remove its endpoint
    from the set; when empty, park the caller's waker `w`. -/
def ReadySockets.pollFront (rs : ReadySockets) (w : Nat) :
    Option (Except Nat ControlBlock) × ReadySockets :=
  match rs.ready with
  | [] => (none, { rs with waker := some w })
  | ReadyEntry.okEntry cb :: rest =>
      (some (Except.ok cb),
       { ready := rest, endpoints := rs.endpoints.erase cb.get_remote, waker := rs.waker })
  | ReadyEntry.errEntry e :: rest =>
      (some (Except.error e), { rs with ready := rest })

/-- `ReadySockets::len`. -/
def ReadySockets.len (rs : ReadySockets) : Nat := rs.ready.length

/-- `PassiveSocket`. The inflight HashMap is modelled as its key set plus a
    data function (lookup is only performed on keys); `bg_live` is the set of
    remote endpoints whose background retry coroutine is alive (spawned and
    neither descheduled nor completed). `isn_gen` models the deterministic
    `IsnGenerator::generate` (isn_generator.rs is outside src/; the spec says
    it deterministically maps (local, remote) to a 32-bit ISN). -/
structure PassiveSocket where
  local_addr : Endpoint
  max_backlog : Nat
  tcp_config : TcpConfig
  isn_gen : Endpoint → Endpoint → Nat
  inflight_keys : Finset Endpoint
  inflight_data : Endpoint → InflightAccept
  ready : ReadySockets
  bg_live : Finset Endpoint

/-- The listener state built by `SharedPassiveSocket::new`. -/
def initSocket (laddr : Endpoint) (max_backlog : Nat) (cfg : TcpConfig)
    (g : Endpoint → Endpoint → Nat) : PassiveSocket :=
  { local_addr := laddr, max_backlog := max_backlog, tcp_config := cfg, isn_gen := g,
    inflight_keys := ∅, inflight_data := fun _ => defaultInflightAccept,
    ready := { ready := [], endpoints := ∅, waker := none },
    bg_live := ∅ }

/-- Outcome of one `receive` call: `Ok(())` with the updated state, a returned
    `Fail{errno}` (the state is unchanged: every early return in the source
    happens before any mutation), or a Rust panic. -/
inductive RecvOut where
  | ok (s : PassiveSocket)
  | fail (errno : Nat)
  | panicked

/-- The TCP-option parsing loop of `receive` (lines 275-289): iterate over the
    options; the last WindowScale and the last MSS seen win; MSS defaults to
    FALLBACK_MSS. Returns (remote_window_scale, mss). -/
def parseOptions (opts : List TcpOption) : Option Nat × Nat :=
  opts.foldl
    (fun acc o =>
      match o with
      | TcpOption.windowScale w => (some w, acc.2)
      | TcpOption.maximumSegmentSize m => (acc.1, m)
      | TcpOption.otherOption => acc)
    (none, FALLBACK_MSS)

/-- The ACK branch of `receive` (lines 186-250), entered when `remote` is a key
    of `inflight`. Requires the ACK flag and `ack_num = local_isn + 1`
    (wrapping u32), else `EBADMSG`. The window computations use Rust
    `checked_shl` + `expect`: `u16::checked_shl` is None iff the shift is ≥ 16
    and `u32::checked_shl` is None iff the shift is ≥ 32, and the `expect`
    panics. On success: remove `remote` from inflight, deschedule the
    background task, build the control block and `push_ok` it. -/
def receiveAck (s : PassiveSocket) (remote : Endpoint) (hdr : TcpHeader) : RecvOut :=
  if hdr.ack = false then RecvOut.fail EBADMSG
  else
    let ia := s.inflight_data remote
    if hdr.ack_num ≠ (ia.local_isn + 1) % 4294967296 then RecvOut.fail EBADMSG
    else
      let scales : Nat × Nat :=
        match ia.remote_window_scale with
        | some w => (s.tcp_config.window_scale, w)
        | none => (0, 0)
      if 16 ≤ scales.2 then RecvOut.panicked
      else if 32 ≤ scales.1 then RecvOut.panicked
      else
        let cb : ControlBlock :=
          { local_addr := s.local_addr, remote := remote,
            receive_next := (ia.remote_isn + 1) % 4294967296,
            send_next := (ia.local_isn + 1) % 4294967296,
            local_window_size := s.tcp_config.receive_window_size * 2 ^ scales.1 % 4294967296,
            local_window_scale := scales.1,
            remote_window_size := ia.header_window_size * 2 ^ scales.2 % 65536,
            remote_window_scale := scales.2,
            mss := ia.mss }
        RecvOut.ok
          { s with
            inflight_keys := s.inflight_keys.erase remote,
            bg_live := s.bg_live.erase remote,
            ready := s.ready.push_ok cb }

/-- The SYN branch of `receive` (lines 252-299), entered when `remote` is
    neither in `ready.endpoints` nor in `inflight`. Requires exactly SYN (no
    ACK, no RST), else `EBADMSG`; refuses with `ECONNREFUSED` when
    `|inflight| + |ready| ≥ max_backlog`. `spawnOk` is the outcome of
    `insert_background_coroutine` (the scheduler is outside src/; modelled
    from the spec, its admission failure surfaces as `EAGAIN`). On success:
    parse options, record the `InflightAccept`, and mark the background task
    live. -/
def receiveSyn (s : PassiveSocket) (remote : Endpoint) (hdr : TcpHeader)
    (spawnOk : Bool) : RecvOut :=
  if hdr.syn = false ∨ hdr.ack = true ∨ hdr.rst = true then RecvOut.fail EBADMSG
  else if s.max_backlog ≤ s.inflight_keys.card + s.ready.len then RecvOut.fail ECONNREFUSED
  else if spawnOk = false then RecvOut.fail EAGAIN
  else
    let local_isn := s.isn_gen s.local_addr remote % 4294967296
    let opts := parseOptions hdr.options
    let ia : InflightAccept :=
      { local_isn := local_isn, remote_isn := hdr.seq_num,
        header_window_size := hdr.window_size,
        remote_window_scale := opts.1, mss := opts.2 }
    RecvOut.ok
      { s with
        inflight_keys := insert remote s.inflight_keys,
        inflight_data := fun e => if e = remote then ia else s.inflight_data e,
        bg_live := insert remote s.bg_live }

/-- `SharedPassiveSocket::receive` (lines 177-300). Computes the remote
    endpoint from the source IP and port; drops silently (Ok, no mutation)
    when the remote is already in `ready.endpoints`; otherwise routes to the
    inflight-ACK branch or the new-SYN branch. -/
def receive (s : PassiveSocket) (ip : Ipv4Header) (hdr : TcpHeader)
    (spawnOk : Bool) : RecvOut :=
  let remote : Endpoint := (ip.src_addr, hdr.src_port)
  if remote ∈ s.ready.endpoints then RecvOut.ok s
  else if remote ∈ s.inflight_keys then receiveAck s remote hdr
  else receiveSyn s remote hdr spawnOk

/-- `SharedPassiveSocket::poll_accept`, with `w` the caller's waker token. -/
def poll_accept (s : PassiveSocket) (w : Nat) :
    Option (Except Nat ControlBlock) × PassiveSocket :=
  let pr := s.ready.pollFront w
  (pr.1, { s with ready := pr.2 })

/-- The final effect of the `background` coroutine when all handshake retries
    are exhausted (lines 306-339): it pushes `ETIMEDOUT` onto the ready queue
    and completes (so its task is no longer live). It does not touch
    `inflight`. -/
def bgTimeoutStep (s : PassiveSocket) (r : Endpoint) : PassiveSocket :=
  { s with bg_live := s.bg_live.erase r, ready := s.ready.push_err ETIMEDOUT }

/-- One interleaving step of the listener: a `receive` call that returns Ok
    (failing calls leave the state unchanged), a `poll_accept` call, or the
    completion of a live background retry coroutine pushing its timeout
    error. -/
inductive Step : PassiveSocket → PassiveSocket → Prop where
  | recv (s s' : PassiveSocket) (ip : Ipv4Header) (hdr : TcpHeader) (spawnOk : Bool) :
      receive s ip hdr spawnOk = RecvOut.ok s' → Step s s'
  | acceptPoll (s : PassiveSocket) (w : Nat) : Step s (poll_accept s w).2
  | bgTimeout (s : PassiveSocket) (r : Endpoint) :
      r ∈ s.bg_live → Step s (bgTimeoutStep s r)

/-- States reachable from a freshly created listener by any interleaving of
    receive calls, poll_accept calls and background-coroutine completions. -/
def Reachable (s0 s : PassiveSocket) : Prop := Relation.ReflTransGen Step s0 s

/-- The remote endpoints of the `Ok` entries of a ready deque, in order. -/
def okRemotes (l : List ReadyEntry) : List Endpoint :=
  l.filterMap
    (fun e =>
      match e with
      | ReadyEntry.okEntry cb => some cb.get_remote
      | ReadyEntry.errEntry _ => none)

/-- The endpoint-set invariant of claim C7: the endpoint set is exactly the set
    of remote endpoints of the Ok entries of the ready deque, and no endpoint
    is both an inflight key and a member of the set. -/
def EndpointInv (s : PassiveSocket) : Prop :=
  s.ready.endpoints = (okRemotes s.ready.ready).toFinset ∧
  ∀ r ∈ s.inflight_keys, r ∉ s.ready.endpoints

/-- Strengthened invariant used for the induction: additionally the Ok-entry
    remotes are pairwise distinct. -/
def AuxInv (s : PassiveSocket) : Prop :=
  EndpointInv s ∧ (okRemotes s.ready.ready).Nodup

/-! ## Background retry coroutine (passive_open.rs lines 302-340) -/

/-- Observable events of one run of `SharedPassiveSocket::background`. -/
inductive BgEvent where
  | arpQuery (ip : Nat)
  | arpFail
  | transmit (mac : Nat) (hdr : TcpHeader)
  | sleepEv (timeout : Nat)
  | pushTimeoutErr
deriving DecidableEq, Repr

/-- The SYN+ACK header built by each iteration of `background` (lines
    314-326): seq = local_isn, ack = remote_isn + 1 (wrapping u32), the
    configured receive window, and exactly the MSS and WindowScale options. -/
def synAckHeader (cfg : TcpConfig) (localPort remotePort local_isn remote_isn : Nat) :
    TcpHeader :=
  { src_port := localPort, dst_port := remotePort,
    seq_num := local_isn,
    ack_num := (remote_isn + 1) % 4294967296,
    syn := true, ack := true, rst := false,
    window_size := cfg.receive_window_size,
    options := [TcpOption.maximumSegmentSize cfg.advertised_mss,
                TcpOption.windowScale cfg.window_scale] }

/-- The retry loop of `background`: `fuel` iterations remain, `i` is the
    iteration index, and `arp i` is the outcome of the i-th ARP query (the ARP
    peer is outside src/; its result is an oracle). On ARP failure the code
    logs a warning and `continue`s; on success it transmits the SYN+ACK and
    then sleeps `handshake_timeout`. After the loop it pushes ETIMEDOUT. -/
def backgroundLoop (cfg : TcpConfig) (laddr remote : Endpoint)
    (remote_isn local_isn : Nat) (arp : Nat → Option Nat) :
    Nat → Nat → List BgEvent
  | 0, _ => [BgEvent.pushTimeoutErr]
  | fuel + 1, i =>
      match arp i with
      | none =>
          BgEvent.arpQuery remote.1 :: BgEvent.arpFail ::
            backgroundLoop cfg laddr remote remote_isn local_isn arp fuel (i + 1)
      | some mac =>
          BgEvent.arpQuery remote.1 ::
            BgEvent.transmit mac (synAckHeader cfg laddr.2 remote.2 local_isn remote_isn) ::
              BgEvent.sleepEv cfg.handshake_timeout ::
                backgroundLoop cfg laddr remote remote_isn local_isn arp fuel (i + 1)

/-- `SharedPassiveSocket::background`: the full event trace of the coroutine,
    given the per-iteration ARP outcomes. -/
def background (cfg : TcpConfig) (laddr remote : Endpoint)
    (remote_isn local_isn : Nat) (arp : Nat → Option Nat) : List BgEvent :=
  backgroundLoop cfg laddr remote remote_isn local_isn arp cfg.handshake_retries 0

/-- The property claim C3 asserts about ARP failures: between any failed ARP
    query and any later retry (a later ARP query) there is a sleep event. -/
def sleepsBeforeArpRetry (tr : List BgEvent) : Prop :=
  ∀ i j, i < j → tr.get? i = some BgEvent.arpFail →
    (∃ ip, tr.get? j = some (BgEvent.arpQuery ip)) →
    ∃ k t, i < k ∧ k < j ∧ tr.get? k = some (BgEvent.sleepEv t)

/-! ## Catmem stream-level pop (src/rust/catmem/queue.rs lines 152-221) -/

/-- One outcome of `CatmemQueue::try_pop` as observed by the `do_pop` loop.
    Modelled from the spec for the ring primitive (catmem/ring.rs is outside
    src/): `try_pop` returns `(None, false)` when the ring is empty,
    `(Some b, false)` for a data byte, and `(_, true)` when the EOF marker is
    consumed (the byte value accompanying EOF is irrelevant and discarded by
    `do_pop`). A `pempty` step carries the value that `yielder.yield_once()`
    would deliver if the coroutine suspends at that point (`Ok(())` to resume,
    `Err(cause)` for cancellation). `pfail` is `try_pop` returning `Err`
    (e.g. EINVAL on a push-only endpoint). -/
inductive PopStep where
  | pfail (errno : Nat)
  | pempty (resume : Except Nat Unit)
  | pbyte (b : Nat)
  | peof (b : Nat)
deriving Repr

/-- Result of `do_pop`: the returned buffer contents and EOF flag, a returned
    error, or a Rust panic (slice-index out of bounds or the `trim` expect). -/
inductive DoPopResult where
  | ok (bytes : List Nat) (eof : Bool)
  | err (errno : Nat)
  | panicked
deriving DecidableEq, Repr

/-- The loop of `CatmemQueue::do_pop` (lines 182-218). `cap` is the length of
    the allocated buffer (`DemiBuffer::new(size as u16)`, i.e. `size % 65536`),
    `size` the requested size, `acc` the bytes written so far (`index` is
    `acc.length`). A data byte is written at `buf[index]` (panic when `index ≥
    cap`); reaching `size` bytes trims by `size - index = 0` and returns
    `eof = false`; EOF trims by `size - index` (panic when that exceeds the
    buffer length) and returns the bytes read with `eof = true`; an empty ring
    after at least one byte returns a short read; an empty ring with nothing
    read yields (returning the injected error on cancellation). When the
    oracle list of ring outcomes is exhausted the loop is still running: the
    result is `none`. -/
def doPopLoop (cap size : Nat) : List Nat → List PopStep → Option DoPopResult
  | _, [] => none
  | _, PopStep.pfail e :: _ => some (DoPopResult.err e)
  | acc, PopStep.peof _ :: _ =>
      if size - acc.length ≤ cap then some (DoPopResult.ok acc true)
      else some DoPopResult.panicked
  | acc, PopStep.pbyte b :: rest =>
      if acc.length < cap then
        if size ≤ acc.length + 1 then some (DoPopResult.ok (acc ++ [b]) false)
        else doPopLoop cap size (acc ++ [b]) rest
      else some DoPopResult.panicked
  | acc, PopStep.pempty resume :: rest =>
      if acc.length > 0 then
        if size - acc.length ≤ cap then some (DoPopResult.ok acc false)
        else some DoPopResult.panicked
      else
        match resume with
        | Except.ok _ => doPopLoop cap size acc rest
        | Except.error c => some (DoPopResult.err c)

/-- `CatmemQueue::do_pop` (lines 178-221): `size` defaults to
    `RECVBUF_SIZE_MAX` (a configuration constant from runtime/limits.rs,
    outside src/, passed here as `recvmax`); the buffer is allocated with
    `DemiBuffer::new(size as u16)`. -/
def do_pop (size : Option Nat) (recvmax : Nat) (steps : List PopStep) :
    Option DoPopResult :=
  let sz := size.getD recvmax
  doPopLoop (sz % 65536) sz [] steps

/-- The algorithm claim C5 describes, in the spec's own words (spec section
    4.5, stream-level pop): read byte-at-a-time up to `size` bytes; EOF
    returns the bytes read so far with `eof = true`; an empty ring after at
    least one byte is a short read with `eof = false`; an empty ring with
    nothing read yields and retries, returning the injected error on
    cancellation. No buffer-capacity cap appears: the spec-side function
    never panics. -/
def doPopSpecLoop (size : Nat) : List Nat → List PopStep → Option DoPopResult
  | _, [] => none
  | _, PopStep.pfail e :: _ => some (DoPopResult.err e)
  | acc, PopStep.peof _ :: _ => some (DoPopResult.ok acc true)
  | acc, PopStep.pbyte b :: rest =>
      if size ≤ acc.length + 1 then some (DoPopResult.ok (acc ++ [b]) false)
      else doPopSpecLoop size (acc ++ [b]) rest
  | acc, PopStep.pempty resume :: rest =>
      if acc.length > 0 then some (DoPopResult.ok acc false)
      else
        match resume with
        | Except.ok _ => doPopSpecLoop size acc rest
        | Except.error c => some (DoPopResult.err c)

/-! ## Catcollar bind (src/rust/catcollar/mod.rs lines 162-211) -/

/-- The per-queue state that `CatcollarLibOS::bind` consults: the underlying
    file descriptor and the recorded local address. -/
structure CatcollarQueue where
  fd : Option Int
  addr : Option Endpoint
deriving DecidableEq, Repr

/-- The queue table as an association list from queue descriptors to queues
    (IoQueueTable; `get` is first-match lookup, `get_values` iterates over all
    entries). -/
abbrev QTable : Type := List (Nat × CatcollarQueue)

/-- `IoQueueTable::get`. -/
def qtableGet (t : QTable) (qd : Nat) : Option CatcollarQueue :=
  (t.find? (fun p => p.1 = qd)).map (fun p => p.2)

/-- Replace the entry of descriptor `qd`. -/
def qtableSet (t : QTable) (qd : Nat) (q : CatcollarQueue) : QTable :=
  t.map (fun p => if p.1 = qd then (p.1, q) else p)

/-- Outcome of `bind`: the updated queue table, a `Fail{errno}`, or a panic
    (the `expect` on a queue without a file descriptor). -/
inductive BindResult where
  | ok (t : QTable)
  | err (errno : Nat)
  | panicked
deriving DecidableEq, Repr

/-- `CatcollarLibOS::bind` (lines 162-211): reject port 0 with ENOTSUP; then
    reject an unknown descriptor with EBADF; then scan every queue in the
    table and reject with EADDRINUSE when any one already records exactly the
    address `local`; then `expect` a file descriptor and issue the OS bind
    (`osBindOk` / `osErrno` model the `libc::bind` outcome, outside src/);
    on success record `local` as the queue's address. -/
def CatcollarLibOS.bind (t : QTable) (qd : Nat) (localEp : Endpoint) (osBindOk : Bool)
    (osErrno : Nat) : BindResult :=
  if localEp.2 = 0 then BindResult.err ENOTSUP
  else
    match qtableGet t qd with
    | none => BindResult.err EBADF
    | some q =>
        if t.any (fun p => p.2.addr = some localEp) then BindResult.err EADDRINUSE
        else
          match q.fd with
          | none => BindResult.panicked
          | some _ =>
              if osBindOk then BindResult.ok (qtableSet t qd { q with addr := some localEp })
              else BindResult.err osErrno

/-! ## NetworkLibOS::listen backlog policy (src/rust/demikernel/libos/network.rs
    lines 115-143) -/

/-- `libc::SOMAXCONN` on Linux. -/
def SOMAXCONN : Nat := 128

/-- The backlog value `NetworkLibOS::listen` passes to the underlying
    transport: truncate above SOMAXCONN, then round 0 up to 1. -/
def listenBacklog (backlog : Nat) : Nat :=
  let b := if backlog > SOMAXCONN then SOMAXCONN else backlog
  if b = 0 then 1 else b

/-! ## Scatter-gather arrays (src/catnap/runtime.rs lines 128-160) -/

/-- One segment of a scatter-gather array: the bytes its pointer+length
    reference. -/
structure Sgaseg where
  bytes : List Nat
deriving DecidableEq, Repr

/-- `dmtr_sgarray_t`: segment count and the single segment slot
    (`sga_segs : [dmtr_sgaseg_t; 1]`). -/
structure Sgarray where
  numsegs : Nat
  seg : Sgaseg
deriving DecidableEq, Repr

/-- Memory effects performed by the sgarray operations. -/
inductive MemEffect where
  | reclaimed (bytes : List Nat)
  | copied (bytes : List Nat)
deriving DecidableEq, Repr

/-- `PosixRuntime::free_sgarray` (lines 128-143): reject with EINVAL unless
    `sga_numsegs == 1`; otherwise reclaim the single segment via
    `DataBuffer::from_raw_parts` (whose outcome, from code outside src/, is
    the `fromRaw` parameter). Returns the result together with the list of
    memory effects performed. -/
def free_sgarray (sga : Sgarray) (fromRaw : Except Nat Unit) :
    Except Nat Unit × List MemEffect :=
  if sga.numsegs ≠ 1 then (Except.error EINVAL, [])
  else
    match fromRaw with
    | Except.ok _ => (Except.ok (), [MemEffect.reclaimed sga.seg.bytes])
    | Except.error e => (Except.error e, [])

/-- `PosixRuntime::clone_sgarray` (lines 146-160): reject with EINVAL unless
    `sga_numsegs == 1`; otherwise deep-copy the single segment
    (`DataBuffer::from_slice`). -/
def clone_sgarray (sga : Sgarray) : Except Nat (List Nat) × List MemEffect :=
  if sga.numsegs ≠ 1 then (Except.error EINVAL, [])
  else (Except.ok sga.seg.bytes, [MemEffect.copied sga.seg.bytes])

/-! ## Concrete example states (used by the bug traces and witnesses) -/

/-- Extract the updated state of an Ok receive, with a fallback. -/
def RecvOut.stateD (r : RecvOut) (d : PassiveSocket) : PassiveSocket :=
  match r with
  | RecvOut.ok s => s
  | _ => d

/-- A concrete TCP configuration (2 handshake retries, window scale 2). -/
def exCfg : TcpConfig :=
  { window_scale := 2, receive_window_size := 4096, advertised_mss := 1450,
    handshake_retries := 2, handshake_timeout := 5 }

/-- Local endpoint of the example listener. -/
def exLocal : Endpoint := (100, 5000)

/-- Remote endpoint of the example peer. -/
def exRemote : Endpoint := (200, 40000)

/-- IPv4 header of every example segment (source = the remote peer). -/
def exIp : Ipv4Header := { src_addr := 200, dst_addr := 100 }

/-- Example listener with max_backlog = 1 and ISN generator constantly 7. -/
def exS0 : PassiveSocket := initSocket exLocal 1 exCfg (fun _ _ => 7)

/-- A plain SYN segment from the example peer (no options). -/
def exSyn : TcpHeader :=
  { src_port := 40000, dst_port := 5000, seq_num := 1000, ack_num := 0,
    syn := true, ack := false, rst := false, window_size := 1000, options := [] }

/-- The matching final ACK (ack_num = local_isn + 1 = 8). -/
def exAck : TcpHeader :=
  { src_port := 40000, dst_port := 5000, seq_num := 1001, ack_num := 8,
    syn := false, ack := true, rst := false, window_size := 1000, options := [] }

/-- The listener after receiving the SYN. -/
def exS1 : PassiveSocket := (receive exS0 exIp exSyn true).stateD exS0

/-- The listener after the background coroutine of the example peer exhausts
    its retries and pushes ETIMEDOUT. -/
def exS2 : PassiveSocket := bgTimeoutStep exS1 exRemote

/-- The listener after the final ACK is then received. -/
def exS3 : PassiveSocket := (receive exS2 exIp exAck true).stateD exS2

/-- A SYN carrying a WindowScale(16) option. -/
def exSynWS : TcpHeader := { exSyn with options := [TcpOption.windowScale 16] }

/-- The listener after receiving the WindowScale(16) SYN. -/
def exT1 : PassiveSocket := (receive exS0 exIp exSynWS true).stateD exS0

/-- A segment with both SYN and ACK set, from an unknown peer. -/
def exSynAck : TcpHeader := { exSyn with ack := true }

/-- ARP oracle that fails on the first query and succeeds on the second. -/
def exArp : Nat → Option Nat := fun i => if i = 0 then none else some 5

/-- A catcollar queue with a file descriptor and no recorded address. -/
def exQ : CatcollarQueue := { fd := some 3, addr := none }

/-- A catcollar queue already bound to 127.0.0.1:5555. -/
def exQBound : CatcollarQueue := { fd := some 4, addr := some (2130706433, 5555) }

/-- A queue table holding the two example queues. -/
def exTable : QTable := [(0, exQ), (1, exQBound)]

/-! ## Helper lemmas -/

/-- okRemotes distributes over list append. -/
theorem okRemotes_append (l1 l2 : List ReadyEntry) :
    okRemotes (l1 ++ l2) = okRemotes l1 ++ okRemotes l2 := by
  simp [okRemotes, List.filterMap_append]

/-- The strengthened endpoint invariant holds at a fresh listener. -/
theorem auxInv_init (laddr : Endpoint) (mb : Nat) (cfg : TcpConfig)
    (g : Endpoint → Endpoint → Nat) : AuxInv (initSocket laddr mb cfg g) := by
  refine ⟨⟨?_, ?_⟩, ?_⟩ <;> simp [initSocket, okRemotes, EndpointInv]

/-- push_err preserves the strengthened endpoint invariant. -/
theorem auxInv_push_err {s : PassiveSocket} (errno : Nat) (h : AuxInv s) :
    AuxInv { s with ready := s.ready.push_err errno } := by
  obtain ⟨⟨he, hd⟩, hn⟩ := h
  refine ⟨⟨?_, ?_⟩, ?_⟩
  · simpa [ReadySockets.push_err, okRemotes_append, okRemotes] using he
  · intro r hr
    simpa [ReadySockets.push_err] using hd r hr
  · simpa [ReadySockets.push_err, okRemotes_append, okRemotes] using hn

/-- A background-coroutine timeout (push_err of ETIMEDOUT) preserves the
    strengthened endpoint invariant. -/
theorem auxInv_bgTimeout {s : PassiveSocket} (r : Endpoint) (h : AuxInv s) :
    AuxInv (bgTimeoutStep s r) := by
  obtain ⟨⟨he, hd⟩, hn⟩ := h
  refine ⟨⟨?_, ?_⟩, ?_⟩
  · simpa [bgTimeoutStep, ReadySockets.push_err, okRemotes_append, okRemotes] using he
  · intro r' hr'
    simpa [bgTimeoutStep, ReadySockets.push_err] using hd r' hr'
  · simpa [bgTimeoutStep, ReadySockets.push_err, okRemotes_append, okRemotes] using hn

/-- poll_accept preserves the strengthened endpoint invariant. -/
theorem auxInv_poll {s : PassiveSocket} (w : Nat) (h : AuxInv s) :
    AuxInv (poll_accept s w).2 := by
  obtain ⟨⟨he, hd⟩, hn⟩ := h
  cases hl : s.ready.ready with
  | nil =>
      refine ⟨⟨?_, ?_⟩, ?_⟩ <;>
        simp_all [poll_accept, ReadySockets.pollFront, hl]
  | cons e rest =>
      cases e with
      | okEntry cb =>
          have hcons : okRemotes (ReadyEntry.okEntry cb :: rest) =
              cb.get_remote :: okRemotes rest := by
            simp [okRemotes]
          rw [hl, hcons] at he hn
          rw [List.nodup_cons] at hn
          have hnotin : cb.get_remote ∉ okRemotes rest := hn.1
          refine ⟨⟨?_, ?_⟩, ?_⟩
          · simp only [poll_accept, ReadySockets.pollFront, hl]
            ext x
            simp only [Finset.mem_erase, he, List.mem_toFinset, List.mem_cons]
            constructor
            · rintro ⟨hx1, hx2 | hx2⟩
              · exact absurd hx2 hx1
              · exact hx2
            · intro hx
              exact ⟨fun hc => hnotin (hc ▸ hx), Or.inr hx⟩
          · intro r' hr'
            simp only [poll_accept, ReadySockets.pollFront, hl]
            intro hc
            exact hd r' hr' (Finset.mem_of_mem_erase hc)
          · simp only [poll_accept, ReadySockets.pollFront, hl]
            exact hn.2
      | errEntry e =>
          have hcons : okRemotes (ReadyEntry.errEntry e :: rest) = okRemotes rest := by
            simp [okRemotes]
          rw [hl, hcons] at he hn
          refine ⟨⟨?_, ?_⟩, ?_⟩
          · simpa [poll_accept, ReadySockets.pollFront, hl] using he
          · intro r' hr'
            simpa [poll_accept, ReadySockets.pollFront, hl] using hd r' hr'
          · simpa [poll_accept, ReadySockets.pollFront, hl] using hn

/-- push_ok of a control block whose remote is not yet in the endpoint set,
    combined with any shrinking of the inflight keys avoiding that remote,
    preserves the strengthened endpoint invariant. -/
theorem auxInv_push_ok_general (s : PassiveSocket) (cb : ControlBlock)
    (ik bg : Finset Endpoint) (h : AuxInv s)
    (hnot : cb.get_remote ∉ s.ready.endpoints)
    (hik : ∀ r ∈ ik, r ∈ s.inflight_keys ∧ r ≠ cb.get_remote) :
    AuxInv { s with inflight_keys := ik, bg_live := bg,
                    ready := s.ready.push_ok cb } := by
  obtain ⟨⟨he, hd⟩, hn⟩ := h
  have hsingle : okRemotes [ReadyEntry.okEntry cb] = [cb.get_remote] := by
    simp [okRemotes, ControlBlock.get_remote]
  have hnotl : cb.get_remote ∉ okRemotes s.ready.ready := by
    intro hc
    exact hnot (he ▸ List.mem_toFinset.mpr hc)
  refine ⟨⟨?_, ?_⟩, ?_⟩
  · show insert cb.get_remote s.ready.endpoints =
      (okRemotes (s.ready.ready ++ [ReadyEntry.okEntry cb])).toFinset
    rw [okRemotes_append, hsingle]
    ext x
    simp only [Finset.mem_insert, he, List.mem_toFinset, List.mem_append,
      List.mem_singleton]
    tauto
  · intro r hr
    obtain ⟨hmem, hne⟩ := hik r hr
    show r ∉ insert cb.get_remote s.ready.endpoints
    simp only [Finset.mem_insert]
    push_neg
    exact ⟨hne, hd r hmem⟩
  · show (okRemotes (s.ready.ready ++ [ReadyEntry.okEntry cb])).Nodup
    rw [okRemotes_append, hsingle, List.nodup_append]
    refine ⟨hn, List.nodup_singleton _, ?_⟩
    intro x hx hx'
    rw [List.mem_singleton] at hx'
    subst hx'
    exact hnotl hx

/-- The ACK branch of receive preserves the strengthened endpoint invariant. -/
theorem auxInv_receiveAck {s s' : PassiveSocket} {remote : Endpoint} {hdr : TcpHeader}
    (h : AuxInv s) (hnot : remote ∉ s.ready.endpoints)
    (hr : receiveAck s remote hdr = RecvOut.ok s') : AuxInv s' := by
  simp only [receiveAck] at hr
  split_ifs at hr with h1 h2 h3 h4 <;>
    try exact RecvOut.noConfusion hr
  injection hr with hs'
  subst hs'
  exact auxInv_push_ok_general s _ _ _ h hnot
    (fun r hr' => by
      rw [Finset.mem_erase] at hr'
      exact ⟨hr'.2, hr'.1⟩)

/-- The SYN branch of receive preserves the strengthened endpoint invariant. -/
theorem auxInv_receiveSyn {s s' : PassiveSocket} {remote : Endpoint} {hdr : TcpHeader}
    {spawnOk : Bool} (h : AuxInv s) (hnot : remote ∉ s.ready.endpoints)
    (hr : receiveSyn s remote hdr spawnOk = RecvOut.ok s') : AuxInv s' := by
  obtain ⟨⟨he, hd⟩, hn⟩ := h
  simp only [receiveSyn] at hr
  split_ifs at hr with g1 g2 g3 <;>
    try exact RecvOut.noConfusion hr
  injection hr with hs'
  subst hs'
  refine ⟨⟨he, ?_⟩, hn⟩
  intro r hrr
  rw [Finset.mem_insert] at hrr
  rcases hrr with rfl | hrr
  · exact hnot
  · exact hd r hrr

/-- Any Ok-returning receive call preserves the strengthened endpoint
    invariant. -/
theorem auxInv_receive {s s' : PassiveSocket} {ip : Ipv4Header} {hdr : TcpHeader}
    {spawnOk : Bool} (h : AuxInv s)
    (hr : receive s ip hdr spawnOk = RecvOut.ok s') : AuxInv s' := by
  simp only [receive] at hr
  by_cases h1 : (ip.src_addr, hdr.src_port) ∈ s.ready.endpoints
  · rw [if_pos h1] at hr
    injection hr with hs'
    subst hs'
    exact h
  · rw [if_neg h1] at hr
    by_cases h2 : (ip.src_addr, hdr.src_port) ∈ s.inflight_keys
    · rw [if_pos h2] at hr
      exact auxInv_receiveAck h h1 hr
    · rw [if_neg h2] at hr
      exact auxInv_receiveSyn h h1 hr

/-- Every interleaving step preserves the strengthened endpoint invariant. -/
theorem auxInv_step {s s' : PassiveSocket} (h : AuxInv s) (hs : Step s s') :
    AuxInv s' := by
  cases hs with
  | recv a ip hdr spawnOk hr => exact auxInv_receive h hr
  | acceptPoll w => exact auxInv_poll w h
  | bgTimeout r hrr => exact auxInv_bgTimeout r h

/-- The do_pop loop with an exact-size buffer agrees with the spec-side loop,
    as long as fewer than size bytes have been read. -/
theorem doPopLoop_eq_specLoop (size : Nat) (steps : List PopStep) :
    ∀ acc : List Nat, acc.length < size →
      doPopLoop size size acc steps = doPopSpecLoop size acc steps := by
  induction steps with
  | nil => intro acc h1; rfl
  | cons st rest ih =>
      intro acc h1
      cases st with
      | pfail e => rfl
      | peof b =>
          unfold doPopLoop doPopSpecLoop
          rw [if_pos (Nat.sub_le _ _)]
      | pbyte b =>
          unfold doPopLoop doPopSpecLoop
          rw [if_pos h1]
          by_cases hs : size ≤ acc.length + 1
          · rw [if_pos hs, if_pos hs]
          · rw [if_neg hs, if_neg hs]
            exact ih (acc ++ [b]) (by simp; omega)
      | pempty r =>
          unfold doPopLoop doPopSpecLoop
          by_cases ha : acc.length > 0
          · rw [if_pos ha, if_pos ha, if_pos (Nat.sub_le _ _)]
          · rw [if_neg ha, if_neg ha]
            cases r with
            | ok u => exact ih acc h1
            | error c => rfl

/-- The spec-side pop loop returns at most size bytes. -/
theorem doPopSpecLoop_ok_length (size : Nat) (steps : List PopStep) :
    ∀ (acc bytes : List Nat) (eofFlag : Bool), acc.length < size →
      doPopSpecLoop size acc steps = some (DoPopResult.ok bytes eofFlag) →
      bytes.length ≤ size := by
  induction steps with
  | nil => intro acc bytes eofFlag h1 h2; exact absurd h2 (by simp [doPopSpecLoop])
  | cons st rest ih =>
      intro acc bytes eofFlag h1 h2
      cases st with
      | pfail e => simp [doPopSpecLoop] at h2
      | peof b =>
          simp only [doPopSpecLoop, Option.some.injEq, DoPopResult.ok.injEq] at h2
          obtain ⟨hb, _⟩ := h2
          subst hb
          omega
      | pbyte b =>
          by_cases hs : size ≤ acc.length + 1
          · simp only [doPopSpecLoop, if_pos hs, Option.some.injEq, DoPopResult.ok.injEq] at h2
            obtain ⟨hb, _⟩ := h2
            subst hb
            simp
            omega
          · simp only [doPopSpecLoop, if_neg hs] at h2
            exact ih (acc ++ [b]) bytes eofFlag (by simp; omega) h2
      | pempty r =>
          by_cases ha : acc.length > 0
          · simp only [doPopSpecLoop, if_pos ha, Option.some.injEq, DoPopResult.ok.injEq] at h2
            obtain ⟨hb, _⟩ := h2
            subst hb
            omega
          · simp only [doPopSpecLoop, if_neg ha] at h2
            cases r with
            | ok u => exact ih acc bytes eofFlag h1 h2
            | error c => simp at h2

/-- Queue-table lookup skips a non-matching head entry. -/
theorem qtableGet_cons_neg (p : Nat × CatcollarQueue) (rest : QTable) (qd : Nat)
    (hp : ¬ p.1 = qd) : qtableGet (p :: rest) qd = qtableGet rest qd := by
  unfold qtableGet
  rw [List.find?_cons_of_neg _ (by simpa using hp)]

/-- Queue-table update unfolds over a cons cell. -/
theorem qtableSet_cons (p : Nat × CatcollarQueue) (rest : QTable) (qd : Nat)
    (q : CatcollarQueue) :
    qtableSet (p :: rest) qd q =
      (if p.1 = qd then (p.1, q) else p) :: qtableSet rest qd q := by
  unfold qtableSet
  rw [List.map_cons]

/-- After updating descriptor qd, looking qd up yields the new queue. -/
theorem qtableGet_qtableSet_self (t : QTable) (qd : Nat) (q q' : CatcollarQueue)
    (h : qtableGet t qd = some q') : qtableGet (qtableSet t qd q) qd = some q := by
  induction t with
  | nil => simp [qtableGet] at h
  | cons p rest ih =>
      by_cases hp : p.1 = qd
      · simp [qtableGet, qtableSet, hp]
      · rw [qtableGet_cons_neg p rest qd hp] at h
        rw [qtableSet_cons, if_neg hp, qtableGet_cons_neg p _ qd hp]
        exact ih h

/-- The background retry loop is the concatenation of its per-iteration event
    blocks followed by the ETIMEDOUT push. -/
theorem backgroundLoop_eq_range (cfg : TcpConfig) (laddr remote : Endpoint)
    (remote_isn local_isn : Nat) (arp : Nat → Option Nat) :
    ∀ fuel i, backgroundLoop cfg laddr remote remote_isn local_isn arp fuel i =
      ((List.range' i fuel).flatMap
        (fun j =>
          match arp j with
          | none => [BgEvent.arpQuery remote.1, BgEvent.arpFail]
          | some mac =>
              [BgEvent.arpQuery remote.1,
               BgEvent.transmit mac
                 (synAckHeader cfg laddr.2 remote.2 local_isn remote_isn),
               BgEvent.sleepEv cfg.handshake_timeout]))
        ++ [BgEvent.pushTimeoutErr] := by
  intro fuel
  induction fuel with
  | zero => intro i; simp [backgroundLoop]
  | succ n ih =>
      intro i
      rw [List.range'_succ]
      cases harp : arp i with
      | none => simp [backgroundLoop, harp, ih (i + 1)]
      | some mac => simp [backgroundLoop, harp, ih (i + 1)]

/-- The background retry loop performs exactly one ARP query per remaining
    iteration. -/
theorem backgroundLoop_arp_count (cfg : TcpConfig) (laddr remote : Endpoint)
    (remote_isn local_isn : Nat) (arp : Nat → Option Nat) :
    ∀ fuel i,
      (backgroundLoop cfg laddr remote remote_isn local_isn arp fuel i).countP
        (fun e => match e with | BgEvent.arpQuery _ => true | _ => false) = fuel := by
  intro fuel
  induction fuel with
  | zero => intro i; simp [backgroundLoop, List.countP_cons]
  | succ n ih =>
      intro i
      cases harp : arp i with
      | none => simp [backgroundLoop, harp, List.countP_cons, ih (i + 1)]
      | some mac => simp [backgroundLoop, harp, List.countP_cons, ih (i + 1)]

/-! ## Claim theorems -/

/-- C1: the backlog bound (spec invariant I2) fails on the code. The claim
    states that after any receive call returns Ok, and over every interleaving
    of receive, poll_accept and background-coroutine steps,
    |inflight| + |ready| is at most max_backlog. This theorem evaluates the
    code on the failing trace: with max_backlog = 1, a SYN is admitted (its
    background task is live), the background task then exhausts its retries
    and pushes ETIMEDOUT without removing the inflight entry, and the peer's
    valid final ACK is then received. That receive call returns Ok, yet the
    resulting reachable state has |inflight| + |ready| = 2 > max_backlog = 1. -/
theorem backlog_exceeded_after_handshake_timeout :
    receive exS0 exIp exSyn true = RecvOut.ok exS1 ∧
    exRemote ∈ exS1.bg_live ∧
    receive exS2 exIp exAck true = RecvOut.ok exS3 ∧
    Reachable exS0 exS3 ∧
    exS3.max_backlog = 1 ∧
    exS3.inflight_keys.card + exS3.ready.len = 2 := by
  refine ⟨rfl, by decide, rfl, ?_, by decide, by decide⟩
  have h1 : Step exS0 exS1 := Step.recv _ _ exIp exSyn true rfl
  have h2 : Step exS1 exS2 := Step.bgTimeout exS1 exRemote (by decide)
  have h3 : Step exS2 exS3 := Step.recv _ _ exIp exAck true rfl
  exact Relation.ReflTransGen.head h1 (Relation.ReflTransGen.head h2
    (Relation.ReflTransGen.head h3 Relation.ReflTransGen.refl))

/-- C2: for every segment whose remote endpoint is not in ready.endpoints,
    receive returns Fail with EBADMSG exactly when (a) the remote is a key of
    inflight and the segment lacks the ACK flag or carries an ack_num
    different from local_isn + 1 (wrapping u32), or (b) it is not in inflight
    and the segment is not exactly a SYN (SYN set, ACK clear, RST clear). -/
theorem receive_ebadmsg_iff (s : PassiveSocket) (ip : Ipv4Header) (hdr : TcpHeader)
    (spawnOk : Bool) (hnot : (ip.src_addr, hdr.src_port) ∉ s.ready.endpoints) :
    (receive s ip hdr spawnOk = RecvOut.fail EBADMSG ↔
      (((ip.src_addr, hdr.src_port) ∈ s.inflight_keys ∧
          (hdr.ack = false ∨
            hdr.ack_num ≠
              ((s.inflight_data (ip.src_addr, hdr.src_port)).local_isn + 1) % 4294967296)) ∨
        ((ip.src_addr, hdr.src_port) ∉ s.inflight_keys ∧
          ¬(hdr.syn = true ∧ hdr.ack = false ∧ hdr.rst = false)))) := by
  unfold receive
  by_cases hm : (ip.src_addr, hdr.src_port) ∈ s.inflight_keys
  · rw [if_neg hnot, if_pos hm]
    simp only [receiveAck]
    split_ifs with h1 h2 h3 h4 <;> simp_all
  · rw [if_neg hnot, if_neg hm]
    simp only [receiveSyn]
    have flags_of : ¬(hdr.syn = false ∨ hdr.ack = true ∨ hdr.rst = true) →
        hdr.syn = true ∧ hdr.ack = false ∧ hdr.rst = false := by
      intro hg
      push_neg at hg
      exact ⟨by simpa using hg.1, by simpa using hg.2.1, by simpa using hg.2.2⟩
    have not_flags : (hdr.syn = false ∨ hdr.ack = true ∨ hdr.rst = true) →
        ¬(hdr.syn = true ∧ hdr.ack = false ∧ hdr.rst = false) := by
      rintro (g | g | g) ⟨hs, ha, hr⟩ <;> simp_all
    have rhs_false : ¬(hdr.syn = false ∨ hdr.ack = true ∨ hdr.rst = true) →
        ¬(((ip.src_addr, hdr.src_port) ∈ s.inflight_keys ∧
            (hdr.ack = false ∨
              hdr.ack_num ≠
                ((s.inflight_data (ip.src_addr, hdr.src_port)).local_isn + 1) % 4294967296)) ∨
          ((ip.src_addr, hdr.src_port) ∉ s.inflight_keys ∧
            ¬(hdr.syn = true ∧ hdr.ack = false ∧ hdr.rst = false))) := by
      rintro hg (⟨hmem, _⟩ | ⟨_, hf⟩)
      · exact hm hmem
      · exact hf (flags_of hg)
    split_ifs with g1 g2 g3
    · exact iff_of_true rfl (Or.inr ⟨hm, not_flags g1⟩)
    · exact iff_of_false (by simp [ECONNREFUSED, EBADMSG]) (rhs_false g1)
    · exact iff_of_false (by simp [EAGAIN, EBADMSG]) (rhs_false g1)
    · exact iff_of_false (by simp) (rhs_false g1)

/-- Witness for C2: on a fresh listener a segment with both SYN and ACK set
    is rejected with EBADMSG (case (b) of the iff). -/
theorem receive_ebadmsg_iff_witness :
    receive exS0 exIp exSynAck true = RecvOut.fail EBADMSG :=
  (receive_ebadmsg_iff exS0 exIp exSynAck true (by decide)).mpr
    (Or.inr ⟨by decide, by decide⟩)

/-- C3 counterexample: the claim says the background coroutine sleeps before
    retrying after an ARP failure. On the trace where the first ARP query
    fails and the second succeeds, the failed query is followed immediately
    by the next ARP query with no sleep event in between, refuting the claim
    as stated. -/
theorem background_no_sleep_before_arp_retry :
    ¬ sleepsBeforeArpRetry (background exCfg exLocal exRemote 1000 7 exArp) := by
  intro h
  obtain ⟨k, t, hk1, hk2, _⟩ := h 1 2 (by decide) (by rfl) ⟨exRemote.1, by rfl⟩
  omega

/-- C3 (amended): the background retry coroutine runs exactly
    handshake_retries iterations (one ARP query each, so at most
    handshake_retries); an iteration whose ARP query fails retries
    immediately, without sleeping; an iteration whose ARP query succeeds
    transmits a SYN+ACK with seq_num = local_isn and
    ack_num = remote_isn + 1 carrying the MaximumSegmentSize and WindowScale
    options and then sleeps handshake_timeout; and when all retries are
    exhausted the coroutine pushes an ETIMEDOUT error onto the ready queue. -/
theorem background_trace (cfg : TcpConfig) (laddr remote : Endpoint)
    (remote_isn local_isn : Nat) (arp : Nat → Option Nat) :
    background cfg laddr remote remote_isn local_isn arp =
      ((List.range cfg.handshake_retries).flatMap
        (fun j =>
          match arp j with
          | none => [BgEvent.arpQuery remote.1, BgEvent.arpFail]
          | some mac =>
              [BgEvent.arpQuery remote.1,
               BgEvent.transmit mac
                 (synAckHeader cfg laddr.2 remote.2 local_isn remote_isn),
               BgEvent.sleepEv cfg.handshake_timeout]))
        ++ [BgEvent.pushTimeoutErr] ∧
    (background cfg laddr remote remote_isn local_isn arp).countP
        (fun e => match e with | BgEvent.arpQuery _ => true | _ => false) =
      cfg.handshake_retries := by
  constructor
  · rw [List.range_eq_range']
    exact backgroundLoop_eq_range cfg laddr remote remote_isn local_isn arp
      cfg.handshake_retries 0
  · exact backgroundLoop_arp_count cfg laddr remote remote_isn local_isn arp
      cfg.handshake_retries 0

/-- C4: a segment (any flags) whose remote endpoint is already a member of
    ready.endpoints is dropped silently: receive returns Ok and the entire
    listener state - inflight map, ready deque, endpoint set and parked
    waker - is returned unchanged. -/
theorem receive_duplicate_drop (s : PassiveSocket) (ip : Ipv4Header) (hdr : TcpHeader)
    (spawnOk : Bool) (hmem : (ip.src_addr, hdr.src_port) ∈ s.ready.endpoints) :
    receive s ip hdr spawnOk = RecvOut.ok s := by
  unfold receive
  simp [hmem]

/-- Witness for C4: the listener that already queued the example peer drops
    that peer's retransmitted SYN without any state change. -/
theorem receive_duplicate_drop_witness :
    receive exS3 exIp exSyn true = RecvOut.ok exS3 :=
  receive_duplicate_drop exS3 exIp exSyn true (by decide)

/-- C5 counterexample: the claim quantifies over every size, but do_pop
    allocates its buffer with DemiBuffer::new(size as u16); for
    size = 65536 the cast truncates to a zero-length buffer, and on the first
    data byte the write buf[0] is out of bounds: the code panics instead of
    returning at most size bytes with an EOF flag. -/
theorem do_pop_size_overflow_panicked :
    do_pop (some 65536) 9216 [PopStep.pbyte 7] = some DoPopResult.panicked := rfl

/-- C5 (amended): for every size with 1 <= size <= 65535 (so that the
    u16-truncated buffer allocation has exactly size bytes), do_pop follows
    the claimed algorithm exactly: it equals the spec-side loop, which returns
    the bytes read so far with eof = true when EOF is consumed, a short read
    with eof = false when the ring is empty after at least one byte, retries
    after a yield when the ring is empty with nothing read, returns the
    injected error on cancellation, and never panics; the result carries at
    most size bytes; and an absent size defaults to RECVBUF_SIZE_MAX. -/
theorem do_pop_refines_spec (size recvmax : Nat) (h1 : 1 ≤ size) (h2 : size ≤ 65535) :
    (∀ steps, do_pop (some size) recvmax steps = doPopSpecLoop size [] steps) ∧
    (∀ steps (bytes : List Nat) (eofFlag : Bool),
        do_pop (some size) recvmax steps = some (DoPopResult.ok bytes eofFlag) →
        bytes.length ≤ size) ∧
    (∀ steps, do_pop none recvmax steps = do_pop (some recvmax) recvmax steps) := by
  have hmod : size % 65536 = size := Nat.mod_eq_of_lt (by omega)
  have hkey : ∀ steps, do_pop (some size) recvmax steps = doPopSpecLoop size [] steps := by
    intro steps
    unfold do_pop
    simp only [Option.getD_some, hmod]
    exact doPopLoop_eq_specLoop size steps [] (by simpa using h1)
  refine ⟨hkey, ?_, fun steps => rfl⟩
  intro steps bytes eofFlag hres
  rw [hkey steps] at hres
  exact doPopSpecLoop_ok_length size steps [] bytes eofFlag (by simpa using h1) hres

/-- Witness for C5: at size 4, one data byte followed by EOF agrees with the
    spec-side loop (both return ([1], eof = true)). -/
theorem do_pop_refines_spec_witness :
    do_pop (some 4) 9216 [PopStep.pbyte 1, PopStep.peof 0] =
      doPopSpecLoop 4 [] [PopStep.pbyte 1, PopStep.peof 0] :=
  (do_pop_refines_spec 4 9216 (by decide) (by decide)).1 _

/-- C6: bind admission. Port 0 is rejected with ENOTSUP (before any other
    check); for a valid descriptor, if any live queue in the table already
    records exactly the address local the call fails with EADDRINUSE; an
    unknown descriptor fails with EBADF; and otherwise, when the underlying
    OS bind succeeds, the call returns Ok and the queue's recorded local
    address becomes local. -/
theorem bind_admission (t : QTable) (qd : Nat) (localEp : Endpoint)
    (osBindOk : Bool) (osErrno : Nat) :
    (localEp.2 = 0 → CatcollarLibOS.bind t qd localEp osBindOk osErrno = BindResult.err ENOTSUP) ∧
    (localEp.2 ≠ 0 → qtableGet t qd = none →
        CatcollarLibOS.bind t qd localEp osBindOk osErrno = BindResult.err EBADF) ∧
    (∀ q, localEp.2 ≠ 0 → qtableGet t qd = some q →
        t.any (fun p => p.2.addr = some localEp) = true →
        CatcollarLibOS.bind t qd localEp osBindOk osErrno = BindResult.err EADDRINUSE) ∧
    (∀ q f, localEp.2 ≠ 0 → qtableGet t qd = some q → q.fd = some f →
        t.any (fun p => p.2.addr = some localEp) = false → osBindOk = true →
        CatcollarLibOS.bind t qd localEp osBindOk osErrno =
          BindResult.ok (qtableSet t qd { q with addr := some localEp }) ∧
        qtableGet (qtableSet t qd { q with addr := some localEp }) qd =
          some { q with addr := some localEp }) := by
  refine ⟨?_, ?_, ?_, ?_⟩
  · intro h0
    unfold CatcollarLibOS.bind
    rw [if_pos h0]
  · intro h0 hq
    unfold CatcollarLibOS.bind
    rw [if_neg h0, hq]
  · intro q h0 hq hin
    unfold CatcollarLibOS.bind
    rw [if_neg h0, hq]
    simp [hin]
  · intro q f h0 hq hfd hnin hos
    unfold CatcollarLibOS.bind
    rw [if_neg h0, hq]
    simp only [hnin, hfd, hos]
    exact ⟨by simp, qtableGet_qtableSet_self t qd _ q hq⟩

/-- Witness for C6: on the example table, binding port 0 yields ENOTSUP,
    binding the already-held 127.0.0.1:5555 yields EADDRINUSE, and binding a
    fresh 127.0.0.1:6000 succeeds and records the address. -/
theorem bind_admission_witness :
    CatcollarLibOS.bind exTable 0 (2130706433, 0) true 0 = BindResult.err ENOTSUP ∧
    CatcollarLibOS.bind exTable 0 (2130706433, 5555) true 0 = BindResult.err EADDRINUSE ∧
    CatcollarLibOS.bind exTable 0 (2130706433, 6000) true 0 =
      BindResult.ok (qtableSet exTable 0 { exQ with addr := some (2130706433, 6000) }) :=
  ⟨(bind_admission exTable 0 (2130706433, 0) true 0).1 rfl,
   (bind_admission exTable 0 (2130706433, 5555) true 0).2.2.1 exQ (by decide) rfl rfl,
   ((bind_admission exTable 0 (2130706433, 6000) true 0).2.2.2 exQ 3 (by decide) rfl rfl
      rfl rfl).1⟩

/-- C7: the endpoint-set invariant. In every state reachable from a fresh
    listener by receive calls, poll_accept calls and background-coroutine
    completions (covering every exit of push_ok, push_err, poll and receive),
    the endpoint set equals exactly the set of remote endpoints of the Ok
    entries of the ready deque (error entries contribute nothing), and no
    remote endpoint is simultaneously an inflight key and a member of the
    set. -/
theorem endpoint_set_invariant (laddr : Endpoint) (mb : Nat) (cfg : TcpConfig)
    (g : Endpoint → Endpoint → Nat) (s : PassiveSocket)
    (h : Reachable (initSocket laddr mb cfg g) s) : EndpointInv s := by
  have haux : AuxInv s := by
    induction h with
    | refl => exact auxInv_init laddr mb cfg g
    | tail hab hbc ih => exact auxInv_step ih hbc
  exact haux.1

/-- Witness for C7: the invariant holds in the state reached after the
    example SYN is admitted. -/
theorem endpoint_set_invariant_witness : EndpointInv exS1 :=
  endpoint_set_invariant exLocal 1 exCfg (fun _ _ => 7) exS1
    (Relation.ReflTransGen.single (Step.recv exS0 exS1 exIp exSyn true rfl))

/-- C8: NetworkLibOS::listen passes the transport a backlog of SOMAXCONN when
    the request exceeds SOMAXCONN, of 1 when the request is 0, and the request
    itself otherwise. -/
theorem listen_backlog_clamp (n : Nat) :
    (SOMAXCONN < n → listenBacklog n = SOMAXCONN) ∧
    (n = 0 → listenBacklog n = 1) ∧
    (0 < n → n ≤ SOMAXCONN → listenBacklog n = n) := by
  have hcf : listenBacklog n = max 1 (min n 128) := by
    simp only [listenBacklog, SOMAXCONN]
    split_ifs <;> simp_all <;> omega
  simp only [SOMAXCONN]
  refine ⟨fun h => ?_, fun h => ?_, fun h1 h2 => ?_⟩ <;> rw [hcf] <;> omega

/-- Witness for C8: requests 200, 0 and 7 are clamped to 128, 1 and 7. -/
theorem listen_backlog_clamp_witness :
    listenBacklog 200 = SOMAXCONN ∧ listenBacklog 0 = 1 ∧ listenBacklog 7 = 7 :=
  ⟨(listen_backlog_clamp 200).1 (by decide),
   (listen_backlog_clamp 0).2.1 rfl,
   (listen_backlog_clamp 7).2.2 (by decide) (by decide)⟩

/-- C9: single-segment enforcement. For a scatter-gather array whose
    sga_numsegs differs from 1, both free_sgarray and clone_sgarray fail with
    EINVAL and perform no memory effect; each performs its reclaim or copy
    only when sga_numsegs equals 1, and then free_sgarray reclaims and
    clone_sgarray copies the single segment. -/
theorem sgarray_single_segment (sga : Sgarray) (fromRaw : Except Nat Unit) :
    (sga.numsegs ≠ 1 →
      free_sgarray sga fromRaw = (Except.error EINVAL, []) ∧
      clone_sgarray sga = (Except.error EINVAL, [])) ∧
    ((free_sgarray sga fromRaw).2 ≠ [] → sga.numsegs = 1) ∧
    ((clone_sgarray sga).2 ≠ [] → sga.numsegs = 1) ∧
    (sga.numsegs = 1 →
      clone_sgarray sga = (Except.ok sga.seg.bytes, [MemEffect.copied sga.seg.bytes]) ∧
      free_sgarray sga (Except.ok ()) =
        (Except.ok (), [MemEffect.reclaimed sga.seg.bytes]) ∧
      ∀ e, free_sgarray sga (Except.error e) = (Except.error e, [])) := by
  unfold free_sgarray clone_sgarray
  by_cases h : sga.numsegs = 1
  · simp [h]
  · cases fromRaw <;> simp [h]

/-- Witness for C9: a two-segment array is rejected by both operations, and a
    one-segment array is cloned. -/
theorem sgarray_single_segment_witness :
    (free_sgarray { numsegs := 2, seg := { bytes := [1] } } (Except.ok ()) =
        (Except.error EINVAL, []) ∧
      clone_sgarray { numsegs := 2, seg := { bytes := [1] } } = (Except.error EINVAL, [])) ∧
    clone_sgarray { numsegs := 1, seg := { bytes := [5, 6] } } =
      (Except.ok [5, 6], [MemEffect.copied [5, 6]]) :=
  ⟨(sgarray_single_segment { numsegs := 2, seg := { bytes := [1] } } (Except.ok ())).1
      (by decide),
   ((sgarray_single_segment { numsegs := 1, seg := { bytes := [5, 6] } }
      (Except.ok ())).2.2.2 rfl).1⟩

/-- C10: the claim says receive never panics and that the ACK-path window-size
    computation surfaces overflow as a Fail. This theorem evaluates the code
    on the failing input: a SYN carrying a WindowScale(16) option is admitted,
    and the peer's valid final ACK then drives the u16 checked_shl of the
    stored header window by scale 16 to None, whose expect panics - receive
    panics instead of returning a Fail. -/
theorem receive_panics_on_window_scale_overflow :
    receive exS0 exIp exSynWS true = RecvOut.ok exT1 ∧
    receive exT1 exIp exAck true = RecvOut.panicked :=
  ⟨rfl, rfl⟩
